import Mathlib

/-!
# Verification of the BPSR capture-to-event pipeline

Shallow embedding of the packet-processing core of the repository:

* the per-flow TCP stream reassembler of the sniffer
  (`src/unnamed/part_002`, `Sniffer.start` packet handler), and
* the outer frame parser / Notify message router of the packet processor
  (`src/unnamed/part_000`, `PacketProcessor.processPacket`,
  `_processNotifyMsg`, `_processAoiSyncDelta`, `_processSyncNearEntities`,
  `_processSyncToMeDeltaInfo`).

Bytes are modelled as `List Nat`; each read applies `% 256`, matching the
Node.js `Buffer` semantics in which every stored byte is in `[0, 255]`.
JavaScript exceptions (out-of-range `Buffer` reads, failed Zstandard
decompression) are modelled by an explicit boolean "threw" channel, and the
`try`/`catch` around the frame loop in `processPacket` discards it.

The schema-decoding layer (`blueprotobuf`, required by `part_000` but not
part of the sources) is a cut point: at the byte level the model emits one
event per routed Notify message carrying the method id and payload bytes,
and the entity/event dispatcher is modelled separately over decoded message
structures whose field conventions follow the specification (absent
protobuf fields are `none` / `0`).
-/

set_option maxHeartbeats 1000000

/-- One byte of a buffer: `Buffer` cells are always reduced mod 256. -/
def byteAt (l : List Nat) (i : Nat) : Nat := (l.getD i 0) % 256

/-- `buffer.readUInt16BE(i)` as a total value (bounds checked by callers). -/
def u16val (l : List Nat) (i : Nat) : Nat := byteAt l i * 256 + byteAt l (i + 1)

/-- `buffer.readUInt32BE(i)` as a total value (bounds checked by callers). -/
def u32val (l : List Nat) (i : Nat) : Nat :=
  byteAt l i * 16777216 + byteAt l (i + 1) * 65536 + byteAt l (i + 2) * 256 + byteAt l (i + 3)

/-- `buffer.readBigUInt64BE(i)` as a total value (bounds checked by callers). -/
def u64val (l : List Nat) (i : Nat) : Nat := u32val l i * 4294967296 + u32val l (i + 4)

/-- `buffer.readUInt32BE(i)` with the `Buffer` range check: `none` models the
`ERR_OUT_OF_RANGE` exception. -/
def u32beAt (l : List Nat) (i : Nat) : Option Nat :=
  if i + 4 ≤ l.length then some (u32val l i) else none

/-- `buffer.readUInt16BE(i)` with the `Buffer` range check. -/
def u16beAt (l : List Nat) (i : Nat) : Option Nat :=
  if i + 2 ≤ l.length then some (u16val l i) else none

/-- `buffer.readBigUInt64BE(i)` with the `Buffer` range check. -/
def u64beAt (l : List Nat) (i : Nat) : Option Nat :=
  if i + 8 ≤ l.length then some (u64val l i) else none

/-- Big-endian 4-byte encoding of `n` (for building concrete frames). -/
def u32bytes (n : Nat) : List Nat :=
  [n / 16777216 % 256, n / 65536 % 256, n / 256 % 256, n % 256]

/-- Big-endian 2-byte encoding of `n`. -/
def u16bytes (n : Nat) : List Nat := [n / 256 % 256, n % 256]

/-- Big-endian 8-byte encoding of `n`. -/
def u64bytes (n : Nat) : List Nat := u32bytes (n / 4294967296) ++ u32bytes (n % 4294967296)

/-- Event emitted at the schema-decoder cut: a Notify message that passed the
service-id filter, with its method id and (decompressed) payload bytes.
Everything the downstream dispatcher does is a function of these two fields. -/
inductive PEvent where
  | notify (methodId : Nat) (payload : List Nat)
  deriving DecidableEq, Repr

/-- The frame-size guard of the sniffer loop: `len < 6 || len > 2 * 1024 * 1024`
(`src/unnamed/part_002` line 96). -/
def badLen (len : Nat) : Bool := len < 6 || len > 2 * 1024 * 1024

/-- The per-flow reassembly loop of the sniffer packet handler
(`src/unnamed/part_002` lines 93-101), given the accumulated flow buffer
`acc` and current offset `off`.  Returns the emitted frames as
`(start, size)` pairs, the final offset, the number of resync-skipped bytes,
and the events produced by handing each frame to the processor `proc`
(whose own exceptions are swallowed by the per-frame `try`/`catch`).
`fuel` bounds the iteration count; `fuel = acc.length` always suffices
because the offset strictly increases while at least 4 bytes remain. -/
def sniffGo (proc : List Nat → List PEvent) :
    Nat → List Nat → Nat → List (Nat × Nat) × Nat × Nat × List PEvent
  | 0, _, off => ([], off, 0, [])
  | f + 1, acc, off =>
    if off + 4 ≤ acc.length then
      let len := u32val acc off
      if badLen len then
        let r := sniffGo proc f acc (off + 1)
        (r.1, r.2.1, r.2.2.1 + 1, r.2.2.2)
      else if acc.length < off + len then
        ([], off, 0, [])
      else
        let frame := (acc.drop off).take len
        let r := sniffGo proc f acc (off + len)
        ((off, len) :: r.1, r.2.1, r.2.2.1, proc frame ++ r.2.2.2)
    else ([], off, 0, [])

/-- One invocation of the sniffer packet handler on flow buffer `acc`
(after appending the new payload), starting from offset 0. -/
def sniffRun (proc : List Nat → List PEvent) (acc : List Nat) :
    List (Nat × Nat) × Nat × Nat × List PEvent :=
  sniffGo proc acc.length acc 0

/-- The bytes retained in the flow buffer after one handler invocation:
`acc.subarray(offset)` (`src/unnamed/part_002` line 102). -/
def sniffRetained (proc : List Nat → List PEvent) (acc : List Nat) : List Nat :=
  acc.drop (sniffRun proc acc).2.1

/-- Sum of the `size` fields of a list of emitted frames. -/
def sumSizes (fs : List (Nat × Nat)) : Nat := (fs.map Prod.snd).sum

/-- The emitted frames form a chain of non-overlapping intervals starting at
or after `off`, each of size at least 6. -/
def framesOk : Nat → List (Nat × Nat) → Prop
  | _, [] => True
  | off, (s, l) :: rest => off ≤ s ∧ 6 ≤ l ∧ framesOk (s + l) rest

theorem framesOk_mono {fs : List (Nat × Nat)} {a b : Nat} (h : a ≤ b)
    (hb : framesOk b fs) : framesOk a fs := by
  cases fs with
  | nil => trivial
  | cons hd tl =>
    obtain ⟨h1, h2, h3⟩ := hb
    exact ⟨le_trans h h1, h2, h3⟩

theorem framesOk_pairwise {fs : List (Nat × Nat)} :
    ∀ {off : Nat}, framesOk off fs →
      fs.Pairwise (fun a b => a.1 + a.2 ≤ b.1) := by
  induction fs with
  | nil => intro _ _; exact List.Pairwise.nil
  | cons hd tl ih =>
    intro off h
    obtain ⟨h1, h2, h3⟩ := h
    refine List.Pairwise.cons ?_ (ih h3)
    intro b hb
    -- every later frame starts at or after `hd.1 + hd.2`
    have : ∀ (c : Nat) (l : List (Nat × Nat)), framesOk c l → ∀ x ∈ l, c ≤ x.1 := by
      intro c l
      induction l generalizing c with
      | nil => intro _ x hx; cases hx
      | cons y ys ihy =>
        intro hc x hx
        obtain ⟨hc1, hc2, hc3⟩ := hc
        cases hx with
        | head => exact hc1
        | tail _ hmem =>
          exact le_trans (by omega) (ihy (y.1 + y.2) hc3 x hmem)
    exact this (hd.1 + hd.2) tl h3 b hb

@[simp] theorem sumSizes_nil : sumSizes [] = 0 := rfl

@[simp] theorem sumSizes_cons (s l : Nat) (fs : List (Nat × Nat)) :
    sumSizes ((s, l) :: fs) = l + sumSizes fs := by
  simp [sumSizes]

/-- Loop exit: fewer than 4 unread bytes. -/
theorem sniffGo_step_stop (proc : List Nat → List PEvent) (f : Nat) (acc : List Nat)
    (off : Nat) (h4 : ¬ off + 4 ≤ acc.length) :
    sniffGo proc f acc off = ([], off, 0, []) := by
  cases f with
  | zero => rfl
  | succ f =>
    rw [sniffGo]
    simp only [h4, if_false]

/-- Resync: a rejected size advances the offset by exactly one byte and counts
one skipped byte. -/
theorem sniffGo_step_skip (proc : List Nat → List PEvent) (f : Nat) (acc : List Nat)
    (off : Nat) (h4 : off + 4 ≤ acc.length) (hbad : badLen (u32val acc off) = true) :
    sniffGo proc (f + 1) acc off
      = ((sniffGo proc f acc (off + 1)).1,
         (sniffGo proc f acc (off + 1)).2.1,
         (sniffGo proc f acc (off + 1)).2.2.1 + 1,
         (sniffGo proc f acc (off + 1)).2.2.2) := by
  rw [sniffGo]
  simp only [h4, if_true, hbad]

/-- Incomplete frame: wait for more bytes. -/
theorem sniffGo_step_break (proc : List Nat → List PEvent) (f : Nat) (acc : List Nat)
    (off : Nat) (h4 : off + 4 ≤ acc.length) (hgood : badLen (u32val acc off) = false)
    (hlen : acc.length < off + u32val acc off) :
    sniffGo proc (f + 1) acc off = ([], off, 0, []) := by
  rw [sniffGo]
  simp only [h4, if_true, hgood, hlen, Bool.false_eq_true, if_false]

/-- Complete frame: slice it, hand it to the processor, advance by its size. -/
theorem sniffGo_step_emit (proc : List Nat → List PEvent) (f : Nat) (acc : List Nat)
    (off : Nat) (h4 : off + 4 ≤ acc.length) (hgood : badLen (u32val acc off) = false)
    (hlen : ¬ acc.length < off + u32val acc off) :
    sniffGo proc (f + 1) acc off
      = ((off, u32val acc off) :: (sniffGo proc f acc (off + u32val acc off)).1,
         (sniffGo proc f acc (off + u32val acc off)).2.1,
         (sniffGo proc f acc (off + u32val acc off)).2.2.1,
         proc ((acc.drop off).take (u32val acc off))
           ++ (sniffGo proc f acc (off + u32val acc off)).2.2.2) := by
  rw [sniffGo]
  simp only [h4, if_true, hgood, hlen, Bool.false_eq_true, if_false]

/-- Main invariant of the reassembly loop: the final offset accounts exactly
for the emitted frame sizes plus the skipped bytes, the frames are chained
and in bounds, and the offset never leaves the buffer. -/
theorem sniffGo_spec (proc : List Nat → List PEvent) :
    ∀ (f : Nat) (acc : List Nat) (off : Nat), off ≤ acc.length →
      (sniffGo proc f acc off).2.1
        = off + sumSizes (sniffGo proc f acc off).1 + (sniffGo proc f acc off).2.2.1
      ∧ framesOk off (sniffGo proc f acc off).1
      ∧ off ≤ (sniffGo proc f acc off).2.1
      ∧ (sniffGo proc f acc off).2.1 ≤ acc.length
      ∧ (∀ p ∈ (sniffGo proc f acc off).1, p.1 + p.2 ≤ acc.length) := by
  intro f
  induction f with
  | zero =>
    intro acc off hoff
    exact ⟨rfl, trivial, le_refl _, hoff, by intro p hp; cases hp⟩
  | succ f ih =>
    intro acc off hoff
    by_cases h4 : off + 4 ≤ acc.length
    · cases hbad : badLen (u32val acc off) with
      | true =>
        rw [sniffGo_step_skip proc f acc off h4 hbad]
        obtain ⟨e1, e2, e3, e4, e5⟩ := ih acc (off + 1) (by omega)
        refine ⟨?_, framesOk_mono (by omega) e2, le_trans (by omega) e3, e4, e5⟩
        show (sniffGo proc f acc (off + 1)).2.1
          = off + sumSizes (sniffGo proc f acc (off + 1)).1
              + ((sniffGo proc f acc (off + 1)).2.2.1 + 1)
        omega
      | false =>
        by_cases hlen : acc.length < off + u32val acc off
        · rw [sniffGo_step_break proc f acc off h4 hbad hlen]
          exact ⟨rfl, trivial, le_refl _, hoff, by intro p hp; cases hp⟩
        · have hl6 : 6 ≤ u32val acc off := by
            simp [badLen] at hbad
            omega
          rw [sniffGo_step_emit proc f acc off h4 hbad hlen]
          obtain ⟨e1, e2, e3, e4, e5⟩ := ih acc (off + u32val acc off) (by omega)
          refine ⟨?_, ⟨le_refl off, hl6, e2⟩, le_trans (by omega) e3, e4, ?_⟩
          · show (sniffGo proc f acc (off + u32val acc off)).2.1
              = off + sumSizes ((off, u32val acc off)
                    :: (sniffGo proc f acc (off + u32val acc off)).1)
                  + (sniffGo proc f acc (off + u32val acc off)).2.2.1
            rw [sumSizes_cons]
            omega
          · intro p hp
            cases hp with
            | head => show off + u32val acc off ≤ acc.length; omega
            | tail _ hmem => exact e5 p hmem
    · rw [sniffGo_step_stop proc (f + 1) acc off h4]
      exact ⟨rfl, trivial, le_refl _, hoff, by intro p hp; cases hp⟩

/-- The retained suffix of a flow buffer never exceeds the 2 MiB frame cap:
the loop only stops with fewer than 4 unread bytes, or waiting on an
incomplete frame whose accepted size is at most `2 * 1024 * 1024`. -/
theorem sniffGo_retained_bound (proc : List Nat → List PEvent) :
    ∀ (f : Nat) (acc : List Nat) (off : Nat), off ≤ acc.length →
      acc.length ≤ f + off →
      acc.length - (sniffGo proc f acc off).2.1 ≤ 2 * 1024 * 1024 := by
  intro f
  induction f with
  | zero =>
    intro acc off hoff hf
    show acc.length - off ≤ 2 * 1024 * 1024
    omega
  | succ f ih =>
    intro acc off hoff hf
    by_cases h4 : off + 4 ≤ acc.length
    · cases hbad : badLen (u32val acc off) with
      | true =>
        rw [sniffGo_step_skip proc f acc off h4 hbad]
        exact ih acc (off + 1) (by omega) (by omega)
      | false =>
        by_cases hlen : acc.length < off + u32val acc off
        · have hcap : u32val acc off ≤ 2 * 1024 * 1024 := by
            simp [badLen] at hbad
            omega
          rw [sniffGo_step_break proc f acc off h4 hbad hlen]
          show acc.length - off ≤ 2 * 1024 * 1024
          omega
        · have hl6 : 6 ≤ u32val acc off := by
            simp [badLen] at hbad
            omega
          rw [sniffGo_step_emit proc f acc off h4 hbad hlen]
          exact ih acc (off + u32val acc off) (by omega) (by omega)
    · rw [sniffGo_step_stop proc (f + 1) acc off h4]
      show acc.length - off ≤ 2 * 1024 * 1024
      omega

/-- The reassembly loop's framing decisions (frames, offset, skip count) do not
depend on the frame processor, and the events are exactly the concatenation of
the processor's output on each emitted frame, in order. -/
theorem sniffGo_proc_irrelevant (p q : List Nat → List PEvent) :
    ∀ (f : Nat) (acc : List Nat) (off : Nat),
      (sniffGo p f acc off).1 = (sniffGo q f acc off).1
      ∧ (sniffGo p f acc off).2.1 = (sniffGo q f acc off).2.1
      ∧ (sniffGo p f acc off).2.2.1 = (sniffGo q f acc off).2.2.1
      ∧ (sniffGo p f acc off).2.2.2
          = ((sniffGo p f acc off).1.map (fun fr => p ((acc.drop fr.1).take fr.2))).flatten := by
  intro f
  induction f with
  | zero => intro acc off; exact ⟨rfl, rfl, rfl, rfl⟩
  | succ f ih =>
    intro acc off
    by_cases h4 : off + 4 ≤ acc.length
    · cases hbad : badLen (u32val acc off) with
      | true =>
        rw [sniffGo_step_skip p f acc off h4 hbad, sniffGo_step_skip q f acc off h4 hbad]
        obtain ⟨i1, i2, i3, i4⟩ := ih acc (off + 1)
        exact ⟨i1, i2, congrArg (· + 1) i3, i4⟩
      | false =>
        by_cases hlen : acc.length < off + u32val acc off
        · rw [sniffGo_step_break p f acc off h4 hbad hlen,
              sniffGo_step_break q f acc off h4 hbad hlen]
          exact ⟨rfl, rfl, rfl, rfl⟩
        · rw [sniffGo_step_emit p f acc off h4 hbad hlen,
              sniffGo_step_emit q f acc off h4 hbad hlen]
          obtain ⟨i1, i2, i3, i4⟩ := ih acc (off + u32val acc off)
          refine ⟨?_, i2, i3, ?_⟩
          · show (off, u32val acc off) :: (sniffGo p f acc (off + u32val acc off)).1
              = (off, u32val acc off) :: (sniffGo q f acc (off + u32val acc off)).1
            rw [i1]
          show p ((acc.drop off).take (u32val acc off))
                ++ (sniffGo p f acc (off + u32val acc off)).2.2.2
            = (((off, u32val acc off) :: (sniffGo p f acc (off + u32val acc off)).1).map
                (fun fr => p ((acc.drop fr.1).take fr.2))).flatten
          rw [List.map_cons, List.flatten_cons, i4]
    · rw [sniffGo_step_stop p (f + 1) acc off h4, sniffGo_step_stop q (f + 1) acc off h4]
      exact ⟨rfl, rfl, rfl, rfl⟩

/-- The service id accepted by `_processNotifyMsg`
(`src/unnamed/part_000` line 630): `0x63335342`. -/
def SERVICE_ID : Nat := 0x63335342

/-- `PacketProcessor._processNotifyMsg` (`src/unnamed/part_000` lines 625-665)
on the frame body following the 6-byte envelope.  Reads the 8-byte service id,
4-byte stub id and 4-byte method id (an out-of-range read throws), discards
the remainder when the service id differs from `SERVICE_ID`, optionally
decompresses the remainder (`none` from `dec` models a decompression
exception), and otherwise emits the routed message at the schema-decoder
cut. -/
def processNotifyMsg (dec : List Nat → Option (List Nat)) (compressed : Bool)
    (body : List Nat) : List PEvent × Bool :=
  if body.length < 8 then ([], true)
  else if body.length < 12 then ([], true)
  else if body.length < 16 then ([], true)
  else if u64val body 0 ≠ SERVICE_ID then ([], false)
  else
    let methodId := u32val body 12
    let payload := body.drop 16
    if compressed then
      match dec payload with
      | none => ([], true)
      | some d => ([.notify methodId d], false)
    else ([.notify methodId payload], false)

/-- The frame loop of `PacketProcessor.processPacket`
(`src/unnamed/part_000` lines 671-723) over buffer `buf` from offset `off`,
with an explicit "threw" flag for the JavaScript exceptions caught by the
surrounding `try`/`catch`.  Peeks the u32 size (throwing when fewer than 4
bytes remain), returns when it is below 6, slices `size` bytes (clamped at
the buffer end, as `subarray` is), processes the frame (message type 2
Notify routes the body; 3 Return is a no-op; 1, 4, 5, 6 Call, Echo,
FrameUp, FrameDown strip the nested 6-byte envelope, optionally decompress
its remainder and re-enter `processPacket` on it, whose own `try`/`catch`
swallows any exception; other types are ignored) and iterates while bytes
remain.  `fuel` bounds the number of loop iterations plus nested
re-entries; the source has no such bound. -/
def ppGo (dec : List Nat → Option (List Nat)) : Nat → List Nat → Nat → List PEvent × Bool
  | 0, _, _ => ([], false)
  | fuel + 1, buf, off =>
    match u32beAt buf off with
    | none => ([], true)
    | some size =>
      if size < 6 then ([], false)
      else
        match
          (fun frame =>
            if frame.length < 6 then ([], true)
            else
              let tf := u16val frame 4
              let compressed := decide (32768 ≤ tf)
              let msgTypeId := tf % 32768
              if msgTypeId = 2 then processNotifyMsg dec compressed (frame.drop 6)
              else if msgTypeId = 3 then ([], false)
              else if msgTypeId = 1 ∨ msgTypeId = 4 ∨ msgTypeId = 5 ∨ msgTypeId = 6 then
                let nested := frame.drop 6
                if nested.length < 6 then ([], true)
                else
                  let nbody := nested.drop 6
                  if 32768 ≤ u16val nested 4 then
                    match dec nbody with
                    | none => ([], true)
                    | some d => ((ppGo dec fuel d 0).1, false)
                  else ((ppGo dec fuel nbody 0).1, false)
              else ([], false) : List Nat → List PEvent × Bool)
            ((buf.drop off).take size)
        with
        | (evs, true) => (evs, true)
        | (evs, false) =>
          if off + size < buf.length then
            let r := ppGo dec fuel buf (off + size)
            (evs ++ r.1, r.2)
          else (evs, false)

/-- Processing of one sliced outer frame inside the `processPacket` loop
(`src/unnamed/part_000` lines 682-718), as a standalone function: read the
`type_and_flags`, split compression bit and message type, and dispatch as
described at `ppGo`. -/
def ppFrame (dec : List Nat → Option (List Nat)) (fuel : Nat) (frame : List Nat) :
    List PEvent × Bool :=
  if frame.length < 6 then ([], true)
  else
    let tf := u16val frame 4
    let compressed := decide (32768 ≤ tf)
    let msgTypeId := tf % 32768
    if msgTypeId = 2 then processNotifyMsg dec compressed (frame.drop 6)
    else if msgTypeId = 3 then ([], false)
    else if msgTypeId = 1 ∨ msgTypeId = 4 ∨ msgTypeId = 5 ∨ msgTypeId = 6 then
      let nested := frame.drop 6
      if nested.length < 6 then ([], true)
      else
        let nbody := nested.drop 6
        if 32768 ≤ u16val nested 4 then
          match dec nbody with
          | none => ([], true)
          | some d => ((ppGo dec fuel d 0).1, false)
        else ((ppGo dec fuel nbody 0).1, false)
    else ([], false)

/-- `PacketProcessor.processPacket`: the frame loop wrapped in the
`try`/`catch` that logs and discards any exception, so the caller always
gets the events emitted before the first failure. -/
def processPacket (dec : List Nat → Option (List Nat)) (fuel : Nat) (buf : List Nat) :
    List PEvent :=
  (ppGo dec fuel buf 0).1

/-- A decompressor that always fails, modelling input streams in which no
compression bit should ever be set (any decompression attempt throws). -/
def dec0 : List Nat → Option (List Nat) := fun _ => none

theorem byteAt_append_left {a b : List Nat} {i : Nat} (h : i < a.length) :
    byteAt (a ++ b) i = byteAt a i := by
  simp [byteAt, List.getD, List.getElem?_append, h]

theorem byteAt_append_off (a b : List Nat) (j : Nat) :
    byteAt (a ++ b) (a.length + j) = byteAt b j := by
  simp [byteAt, List.getD, List.getElem?_append, Nat.add_sub_cancel_left]

theorem u16val_append_left {a b : List Nat} {i : Nat} (h : i + 2 ≤ a.length) :
    u16val (a ++ b) i = u16val a i := by
  unfold u16val
  rw [byteAt_append_left (by omega), byteAt_append_left (by omega)]

theorem u16val_append_off (a b : List Nat) (j : Nat) :
    u16val (a ++ b) (a.length + j) = u16val b j := by
  unfold u16val
  rw [byteAt_append_off, show a.length + j + 1 = a.length + (j + 1) by omega, byteAt_append_off]

theorem u32val_append_left {a b : List Nat} {i : Nat} (h : i + 4 ≤ a.length) :
    u32val (a ++ b) i = u32val a i := by
  unfold u32val
  rw [byteAt_append_left (by omega), byteAt_append_left (by omega),
      byteAt_append_left (by omega), byteAt_append_left (by omega)]

theorem u32val_append_off (a b : List Nat) (j : Nat) :
    u32val (a ++ b) (a.length + j) = u32val b j := by
  unfold u32val
  rw [byteAt_append_off, show a.length + j + 1 = a.length + (j + 1) by omega, byteAt_append_off,
      show a.length + j + 2 = a.length + (j + 2) by omega, byteAt_append_off,
      show a.length + j + 3 = a.length + (j + 3) by omega, byteAt_append_off]

theorem u64val_append_left {a b : List Nat} {i : Nat} (h : i + 8 ≤ a.length) :
    u64val (a ++ b) i = u64val a i := by
  unfold u64val
  rw [u32val_append_left (by omega), u32val_append_left (by omega)]

theorem u32beAt_some {l : List Nat} {i n : Nat} (h : u32beAt l i = some n) :
    i + 4 ≤ l.length ∧ u32val l i = n := by
  unfold u32beAt at h
  split at h
  · exact ⟨by assumption, by injection h⟩
  · exact absurd h (by simp)

theorem u16beAt_some {l : List Nat} {i n : Nat} (h : u16beAt l i = some n) :
    i + 2 ≤ l.length ∧ u16val l i = n := by
  unfold u16beAt at h
  split at h
  · exact ⟨by assumption, by injection h⟩
  · exact absurd h (by simp)

theorem u64beAt_some {l : List Nat} {i n : Nat} (h : u64beAt l i = some n) :
    i + 8 ≤ l.length ∧ u64val l i = n := by
  unfold u64beAt at h
  split at h
  · exact ⟨by assumption, by injection h⟩
  · exact absurd h (by simp)

/-- Unfolding equation of the frame loop for positive fuel. -/
theorem ppGo_succ (dec : List Nat → Option (List Nat)) (f : Nat) (buf : List Nat) (off : Nat) :
    ppGo dec (f + 1) buf off =
      match u32beAt buf off with
      | none => ([], true)
      | some size =>
        if size < 6 then ([], false)
        else
          match ppFrame dec f ((buf.drop off).take size) with
          | (evs, true) => (evs, true)
          | (evs, false) =>
            if off + size < buf.length then
              (evs ++ (ppGo dec f buf (off + size)).1, (ppGo dec f buf (off + size)).2)
            else (evs, false)
    := by
  rw [ppGo]
  rfl

/-- A size prefix below 6 makes the frame loop return immediately with no
events and no exception, for any fuel. -/
theorem ppGo_small_size {dec : List Nat → Option (List Nat)} {buf : List Nat} {off n : Nat}
    (f : Nat) (hpeek : u32beAt buf off = some n) (hn : n < 6) :
    ppGo dec f buf off = ([], false) := by
  cases f with
  | zero => rw [ppGo]
  | succ f =>
    rw [ppGo_succ, hpeek]
    simp only [hn, if_true]

/-- **C10.** In `processPacket`'s frame loop, peeking a u32 size below 6
returns immediately: no further events, no exception, no one-byte resync —
the rest of the buffer is discarded.  Events already emitted for earlier
frames of the same buffer are retained: a well-formed frame followed by a
short-size tail yields exactly the events of the frame alone. -/
theorem claim_C10 :
    (∀ (dec : List Nat → Option (List Nat)) (f : Nat) (buf : List Nat) (off n : Nat),
        u32beAt buf off = some n → n < 6 → ppGo dec f buf off = ([], false))
  ∧ (∀ (dec : List Nat → Option (List Nat)) (f : Nat) (N junk : List Nat) (n : Nat),
        u32beAt N 0 = some N.length → 6 ≤ N.length →
        u32beAt junk 0 = some n → n < 6 →
        processPacket dec (f + 1) (N ++ junk) = processPacket dec (f + 1) N) := by
  constructor
  · intro dec f buf off n hpeek hn
    exact ppGo_small_size f hpeek hn
  · intro dec f N junk n hN h6 hj hn
    obtain ⟨hN4, hNv⟩ := u32beAt_some hN
    obtain ⟨hj4, hjv⟩ := u32beAt_some hj
    unfold processPacket
    rw [ppGo_succ, ppGo_succ]
    have hL0 : u32beAt (N ++ junk) 0 = some N.length := by
      unfold u32beAt
      rw [if_pos (by simp; omega), u32val_append_left (by omega), hNv]
    rw [hL0, hN]
    simp only [show ¬ N.length < 6 by omega, if_false]
    have hframeL : ((N ++ junk).drop 0).take N.length = N := by
      rw [List.drop_zero]
      exact List.take_left N junk
    have hframeR : (N.drop 0).take N.length = N := by
      rw [List.drop_zero, List.take_length]
    rw [hframeL, hframeR]
    cases hpf : ppFrame dec f N with
    | mk evs thr =>
      cases thr with
      | true => simp
      | false =>
        simp only [Nat.zero_add]
        have hcond : N.length < (N ++ junk).length := by simp; omega
        have hcond2 : ¬ N.length < N.length := by omega
        rw [if_pos hcond, if_neg hcond2]
        have htail : ppGo dec f (N ++ junk) N.length = ([], false) := by
          refine ppGo_small_size f ?_ hn
          unfold u32beAt
          rw [if_pos (by simp; omega),
              show N.length = N.length + 0 by omega, u32val_append_off, hjv]
        rw [htail]
        simp

theorem claim_C10_witness :
    u32beAt [0, 0, 0, 6, 0, 2] 0 = some ([0, 0, 0, 6, 0, 2] : List Nat).length
    ∧ 6 ≤ ([0, 0, 0, 6, 0, 2] : List Nat).length
    ∧ u32beAt [0, 0, 0, 0] 0 = some 0
    ∧ 0 < 6
    ∧ processPacket dec0 2 ([0, 0, 0, 6, 0, 2] ++ [0, 0, 0, 0])
        = processPacket dec0 2 [0, 0, 0, 6, 0, 2] := by
  refine ⟨by decide, by decide, by decide, by decide, ?_⟩
  exact claim_C10.2 dec0 1 [0, 0, 0, 6, 0, 2] [0, 0, 0, 0] 0
    (by decide) (by decide) (by decide) (by decide)

/-- `_processNotifyMsg` with a service id other than `SERVICE_ID` emits no
event, whatever else the body holds (a body too short for the three header
reads throws before the check, also emitting nothing). -/
theorem processNotifyMsg_filtered (dec : List Nat → Option (List Nat)) (c : Bool)
    (body : List Nat) (s : Nat) (h : u64beAt body 0 = some s) (hs : s ≠ SERVICE_ID) :
    (processNotifyMsg dec c body).1 = [] := by
  obtain ⟨h8, hv⟩ := u64beAt_some h
  unfold processNotifyMsg
  rw [if_neg (by omega)]
  by_cases h12 : body.length < 12
  · rw [if_pos h12]
  · rw [if_neg h12]
    by_cases h16 : body.length < 16
    · rw [if_pos h16]
    · rw [if_neg h16, if_pos (by rw [hv]; exact hs)]

/-- **C8.** A self-sized Notify frame whose 8-byte service id differs from
`0x63335342` produces zero events through `processPacket`: the remainder is
discarded without being routed to any handler. -/
theorem claim_C8 (dec : List Nat → Option (List Nat)) (fuel : Nat) (buf : List Nat)
    (tf s : Nat) (hsz : u32beAt buf 0 = some buf.length) (h6 : 6 ≤ buf.length)
    (htf : u16beAt buf 4 = some tf) (hty : tf % 32768 = 2)
    (hsv : u64beAt (buf.drop 6) 0 = some s) (hne : s ≠ SERVICE_ID) :
    processPacket dec fuel buf = [] := by
  cases fuel with
  | zero =>
    unfold processPacket
    rw [ppGo]
  | succ f =>
    unfold processPacket
    rw [ppGo_succ, hsz]
    simp only [show ¬ buf.length < 6 by omega, if_false]
    have hframe : (buf.drop 0).take buf.length = buf := by
      rw [List.drop_zero, List.take_length]
    rw [hframe]
    obtain ⟨ht2, htv⟩ := u16beAt_some htf
    have hpf : ppFrame dec f buf
        = processNotifyMsg dec (decide (32768 ≤ tf)) (buf.drop 6) := by
      rw [ppFrame, if_neg (by omega)]
      simp [htv, hty]
    rw [hpf]
    have hevs := processNotifyMsg_filtered dec (decide (32768 ≤ tf)) (buf.drop 6) s hsv hne
    cases hres : processNotifyMsg dec (decide (32768 ≤ tf)) (buf.drop 6) with
    | mk evs thr =>
      rw [hres] at hevs
      cases thr with
      | true => simpa using hevs
      | false =>
        simp only [Nat.zero_add]
        rw [if_neg (by omega)]
        simpa using hevs

theorem claim_C8_witness :
    u32beAt [0, 0, 0, 22, 0, 2, 0, 0, 0, 0, 0, 0, 0, 1, 0, 0, 0, 0, 0, 0, 0, 7] 0
        = some ([0, 0, 0, 22, 0, 2, 0, 0, 0, 0, 0, 0, 0, 1, 0, 0, 0, 0, 0, 0, 0, 7] : List Nat).length
    ∧ u16beAt [0, 0, 0, 22, 0, 2, 0, 0, 0, 0, 0, 0, 0, 1, 0, 0, 0, 0, 0, 0, 0, 7] 4 = some 2
    ∧ u64beAt (([0, 0, 0, 22, 0, 2, 0, 0, 0, 0, 0, 0, 0, 1, 0, 0, 0, 0, 0, 0, 0, 7] : List Nat).drop 6) 0
        = some 1
    ∧ (1 : Nat) ≠ SERVICE_ID
    ∧ processPacket dec0 1 [0, 0, 0, 22, 0, 2, 0, 0, 0, 0, 0, 0, 0, 1, 0, 0, 0, 0, 0, 0, 0, 7] = [] := by
  refine ⟨by decide, by decide, by decide, by decide, ?_⟩
  exact claim_C8 dec0 1 [0, 0, 0, 22, 0, 2, 0, 0, 0, 0, 0, 0, 0, 1, 0, 0, 0, 0, 0, 0, 0, 7] 2 1
    (by decide) (by decide) (by decide) (by decide) (by decide) (by decide)

@[simp] theorem u32bytes_length (n : Nat) : (u32bytes n).length = 4 := by
  simp [u32bytes]

@[simp] theorem u16bytes_length (n : Nat) : (u16bytes n).length = 2 := by
  simp [u16bytes]

theorem u32val_u32bytes (n : Nat) (h : n < 4294967296) (rest : List Nat) :
    u32val (u32bytes n ++ rest) 0 = n := by
  simp only [u32bytes, List.cons_append, List.nil_append]
  simp [u32val, byteAt, List.getD]
  omega

theorem u16val_u16bytes (n : Nat) (h : n < 65536) (rest : List Nat) :
    u16val (u16bytes n ++ rest) 0 = n := by
  simp only [u16bytes, List.cons_append, List.nil_append]
  simp [u16val, byteAt, List.getD]
  omega

/-- **C1.** Container unwrap is lossless: an outer frame of type Call, Echo,
FrameUp or FrameDown (`t ∈ {1, 4, 5, 6}`) whose body is a nested 6-byte
envelope (uncompressed) followed by exactly one well-formed Notify frame `N`
makes `processPacket` emit precisely the events of feeding `N` directly to
`processPacket` (with one unit of recursion budget spent on the unwrap). -/
theorem claim_C1 (dec : List Nat → Option (List Nat)) (f : Nat) (N nest6 : List Nat)
    (t m tfN : Nat) (ht : t = 1 ∨ t = 4 ∨ t = 5 ∨ t = 6) (hn6 : nest6.length = 6)
    (hm : u16beAt nest6 4 = some m) (hmc : m < 32768)
    (hN : u32beAt N 0 = some N.length) (hN6 : 6 ≤ N.length)
    (hNty : u16beAt N 4 = some tfN) (hNty2 : tfN % 32768 = 2)
    (hfit : 12 + N.length < 4294967296) :
    processPacket dec (f + 1) (u32bytes (12 + N.length) ++ u16bytes t ++ nest6 ++ N)
      = processPacket dec f N := by
  obtain ⟨hm2, hmv⟩ := u16beAt_some hm
  have ht6 : t ≤ 6 := by rcases ht with h | h | h | h <;> omega
  set C := u32bytes (12 + N.length) ++ u16bytes t ++ nest6 ++ N with hC
  have hCrot : C = u32bytes (12 + N.length) ++ (u16bytes t ++ (nest6 ++ N)) := by
    rw [hC]
    simp [List.append_assoc]
  have hCassoc6 : C = (u32bytes (12 + N.length) ++ u16bytes t) ++ (nest6 ++ N) := by
    rw [hC]
    simp [List.append_assoc]
  have hClen : C.length = 12 + N.length := by
    rw [hC]
    simp [hn6]
    omega
  have hCval : u32val C 0 = 12 + N.length := by
    rw [hCrot]
    exact u32val_u32bytes _ hfit _
  unfold processPacket
  rw [ppGo_succ]
  have hpeek : u32beAt C 0 = some C.length := by
    unfold u32beAt
    rw [if_pos (by omega), hCval, hClen]
  rw [hpeek]
  simp only [show ¬ C.length < 6 by omega, if_false]
  have hframe : (C.drop 0).take C.length = C := by
    rw [List.drop_zero, List.take_length]
  rw [hframe]
  have hnested : C.drop 6 = nest6 ++ N := by
    rw [hCassoc6,
        show (6 : Nat) = ((u32bytes (12 + N.length) ++ u16bytes t)).length by simp]
    exact List.drop_left _ _
  have htf : u16val C 4 = t := by
    rw [hCrot, show (4 : Nat) = (u32bytes (12 + N.length)).length + 0 by simp,
        u16val_append_off]
    exact u16val_u16bytes t (by omega) _
  have hpf : ppFrame dec f C = ((ppGo dec f N 0).1, false) := by
    rw [ppFrame, if_neg (by omega)]
    simp only [htf, Nat.mod_eq_of_lt (show t < 32768 by omega)]
    rw [if_neg (by rcases ht with h | h | h | h <;> omega),
        if_neg (by rcases ht with h | h | h | h <;> omega),
        if_pos ht, hnested,
        if_neg (by simp [hn6])]
    have hntf : u16val (nest6 ++ N) 4 = m := by
      rw [u16val_append_left (by omega), hmv]
    rw [hntf, if_neg (by omega),
        show (nest6 ++ N).drop 6 = N by rw [← hn6]; exact List.drop_left _ _]
  rw [hpf]
  simp only [Nat.zero_add]
  rw [if_neg (by omega)]

theorem claim_C1_witness :
    ((1 : Nat) = 1 ∨ (1 : Nat) = 4 ∨ (1 : Nat) = 5 ∨ (1 : Nat) = 6)
    ∧ ([0, 0, 0, 0, 0, 0] : List Nat).length = 6
    ∧ u16beAt [0, 0, 0, 0, 0, 0] 4 = some 0
    ∧ u32beAt [0, 0, 0, 6, 0, 2] 0 = some ([0, 0, 0, 6, 0, 2] : List Nat).length
    ∧ u16beAt [0, 0, 0, 6, 0, 2] 4 = some 2
    ∧ processPacket dec0 1
        (u32bytes (12 + ([0, 0, 0, 6, 0, 2] : List Nat).length) ++ u16bytes 1
          ++ [0, 0, 0, 0, 0, 0] ++ [0, 0, 0, 6, 0, 2])
        = processPacket dec0 0 [0, 0, 0, 6, 0, 2] := by
  refine ⟨by decide, by decide, by decide, by decide, by decide, ?_⟩
  exact claim_C1 dec0 0 [0, 0, 0, 6, 0, 2] [0, 0, 0, 0, 0, 0] 1 0 2
    (by decide) (by decide) (by decide) (by decide) (by decide) (by decide) (by decide)
    (by decide) (by decide)

/-- Maximum nesting depth of `processPacket` re-entries reached while the
frame loop walks the buffer (the source recurses with no bound; `fuel` is
only the model's iteration budget).  Mirrors `ppGo` branch for branch: a
container envelope contributes one re-entry plus the depth of its nested
content, and `ppFrame` supplies the exception flag that gates the loop
continuation. -/
def ppDepth (dec : List Nat → Option (List Nat)) : Nat → List Nat → Nat → Nat
  | 0, _, _ => 0
  | fuel + 1, buf, off =>
    match u32beAt buf off with
    | none => 0
    | some size =>
      if size < 6 then 0
      else
        let frame := (buf.drop off).take size
        let d1 :=
          if frame.length < 6 then 0
          else
            let msgTypeId := u16val frame 4 % 32768
            if msgTypeId = 2 then 0
            else if msgTypeId = 3 then 0
            else if msgTypeId = 1 ∨ msgTypeId = 4 ∨ msgTypeId = 5 ∨ msgTypeId = 6 then
              let nested := frame.drop 6
              if nested.length < 6 then 0
              else
                let nbody := nested.drop 6
                if 32768 ≤ u16val nested 4 then
                  match dec nbody with
                  | none => 0
                  | some d => 1 + ppDepth dec fuel d 0
                else 1 + ppDepth dec fuel nbody 0
            else 0
        if (ppFrame dec fuel frame).2 then d1
        else if off + size < buf.length then max d1 (ppDepth dec fuel buf (off + size))
        else d1

/-- A minimal well-formed Notify frame: size 22, type 2, the accepted service
id, stub id 0, method id 7, empty payload. -/
def notifyFrame0 : List Nat :=
  u32bytes 22 ++ u16bytes 2 ++ u64bytes 0x63335342 ++ u32bytes 0 ++ u32bytes 7

/-- Wrap a byte string in a container envelope of type `t`: outer size/type
header followed by a nested 6-byte envelope (nested size ignored by the
source, nested type 0 = uncompressed) and the content. -/
def wrapFrame (t : Nat) (X : List Nat) : List Nat :=
  u32bytes (12 + X.length) ++ u16bytes t ++ [0, 0, 0, 0, 0, 0] ++ X

/-- Five nested container envelopes around a Notify frame. -/
def deep5 : List Nat :=
  wrapFrame 1 (wrapFrame 4 (wrapFrame 5 (wrapFrame 6 (wrapFrame 1 notifyFrame0))))

/-- **C4 (counterexample).** The outer frame parser does not stop at nesting
depth 4: on a frame nested five containers deep it reaches re-entry depth 5
and still unwraps and routes the innermost Notify message. -/
theorem claim_C4_counterexample :
    4 < ppDepth dec0 32 deep5 0
    ∧ ppDepth dec0 32 deep5 0 = 5
    ∧ processPacket dec0 32 deep5 = [PEvent.notify 7 []] := by
  refine ⟨by decide, by decide, by decide⟩

/-- Peek failure (fewer than 4 bytes at the offset) throws. -/
theorem ppGo_peek_none {dec : List Nat → Option (List Nat)} {buf : List Nat} {off : Nat}
    (f : Nat) (hpeek : u32beAt buf off = none) :
    ppGo dec (f + 1) buf off = ([], true) := by
  rw [ppGo_succ, hpeek]

/-- Frame processed with an exception: the loop stops, keeping the events. -/
theorem ppGo_step_threw {dec : List Nat → Option (List Nat)} {buf : List Nat}
    {off size : Nat} {evs : List PEvent} (f : Nat)
    (hpeek : u32beAt buf off = some size) (hs : ¬ size < 6)
    (hf : ppFrame dec f ((buf.drop off).take size) = (evs, true)) :
    ppGo dec (f + 1) buf off = (evs, true) := by
  rw [ppGo_succ, hpeek]
  simp only [hs, if_false, hf]

/-- Frame processed cleanly with bytes remaining: the loop continues. -/
theorem ppGo_step_cont {dec : List Nat → Option (List Nat)} {buf : List Nat}
    {off size : Nat} {evs : List PEvent} (f : Nat)
    (hpeek : u32beAt buf off = some size) (hs : ¬ size < 6)
    (hf : ppFrame dec f ((buf.drop off).take size) = (evs, false))
    (hrem : off + size < buf.length) :
    ppGo dec (f + 1) buf off
      = (evs ++ (ppGo dec f buf (off + size)).1, (ppGo dec f buf (off + size)).2) := by
  rw [ppGo_succ, hpeek]
  simp only [hs, if_false, hf, hrem, if_true]

/-- Frame processed cleanly with no bytes remaining: the loop exits. -/
theorem ppGo_step_last {dec : List Nat → Option (List Nat)} {buf : List Nat}
    {off size : Nat} {evs : List PEvent} (f : Nat)
    (hpeek : u32beAt buf off = some size) (hs : ¬ size < 6)
    (hf : ppFrame dec f ((buf.drop off).take size) = (evs, false))
    (hrem : ¬ off + size < buf.length) :
    ppGo dec (f + 1) buf off = (evs, false) := by
  rw [ppGo_succ, hpeek]
  simp only [hs, if_false, hf, hrem]

/-- Fuel-independence of the frame loop: when the decompressor never expands
its payload, any fuel beyond the remaining buffer length gives the same
result, so the source's unbounded recursion always terminates on such
inputs (nested re-entry strictly shrinks the bytes in play). -/
theorem ppGo_fuel_stable (dec : List Nat → Option (List Nat))
    (hdec : ∀ b r, dec b = some r → r.length ≤ b.length) :
    ∀ (f₁ f₂ : Nat) (buf : List Nat) (off : Nat),
      buf.length - off < f₁ → buf.length - off < f₂ →
      ppGo dec f₁ buf off = ppGo dec f₂ buf off := by
  intro f₁
  induction f₁ using Nat.strong_induction_on with
  | _ f₁ ih =>
    intro f₂ buf off h1 h2
    cases f₁ with
    | zero => omega
    | succ g₁ =>
      cases f₂ with
      | zero => omega
      | succ g₂ =>
        cases hpeek : u32beAt buf off with
        | none => rw [ppGo_peek_none g₁ hpeek, ppGo_peek_none g₂ hpeek]
        | some size =>
          by_cases hs : size < 6
          · rw [ppGo_small_size (g₁ + 1) hpeek hs, ppGo_small_size (g₂ + 1) hpeek hs]
          · have hfl : ((buf.drop off).take size).length ≤ buf.length - off := by
              simp [List.length_take, List.length_drop]
            have hfr_stable : ppFrame dec g₁ ((buf.drop off).take size)
                = ppFrame dec g₂ ((buf.drop off).take size) := by
              set fr := (buf.drop off).take size with hfrdef
              rw [ppFrame, ppFrame]
              by_cases h6 : fr.length < 6
              · rw [if_pos h6, if_pos h6]
              · rw [if_neg h6, if_neg h6]
                by_cases hm2 : u16val fr 4 % 32768 = 2
                · rw [if_pos hm2, if_pos hm2]
                · rw [if_neg hm2, if_neg hm2]
                  by_cases hm3 : u16val fr 4 % 32768 = 3
                  · rw [if_pos hm3, if_pos hm3]
                  · rw [if_neg hm3, if_neg hm3]
                    by_cases hmc : u16val fr 4 % 32768 = 1 ∨ u16val fr 4 % 32768 = 4
                        ∨ u16val fr 4 % 32768 = 5 ∨ u16val fr 4 % 32768 = 6
                    · rw [if_pos hmc, if_pos hmc]
                      by_cases hn6 : (fr.drop 6).length < 6
                      · rw [if_pos hn6, if_pos hn6]
                      · rw [if_neg hn6, if_neg hn6]
                        have hfl12 : 12 ≤ fr.length := by
                          simp [List.length_drop] at hn6
                          omega
                        have hnbl : ((fr.drop 6).drop 6).length = fr.length - 12 := by
                          simp [List.length_drop]
                        by_cases hcmp : 32768 ≤ u16val (fr.drop 6) 4
                        · rw [if_pos hcmp, if_pos hcmp]
                          cases hd : dec ((fr.drop 6).drop 6) with
                          | none => rfl
                          | some d =>
                            have hdl := hdec _ _ hd
                            have hrec : ppGo dec g₁ d 0 = ppGo dec g₂ d 0 :=
                              ih g₁ (by omega) g₂ d 0 (by simp; omega) (by simp; omega)
                            simp only [hrec]
                        · rw [if_neg hcmp, if_neg hcmp]
                          have hrec : ppGo dec g₁ ((fr.drop 6).drop 6) 0
                              = ppGo dec g₂ ((fr.drop 6).drop 6) 0 :=
                            ih g₁ (by omega) g₂ _ 0 (by simp [hnbl]; omega)
                              (by simp [hnbl]; omega)
                          rw [hrec]
                    · rw [if_neg hmc, if_neg hmc]
            cases hres : ppFrame dec g₂ ((buf.drop off).take size) with
            | mk evs thr =>
              cases thr with
              | true =>
                rw [ppGo_step_threw g₁ hpeek hs (hfr_stable.trans hres),
                    ppGo_step_threw g₂ hpeek hs hres]
              | false =>
                by_cases hrem : off + size < buf.length
                · rw [ppGo_step_cont g₁ hpeek hs (hfr_stable.trans hres) hrem,
                      ppGo_step_cont g₂ hpeek hs hres hrem]
                  have hrec : ppGo dec g₁ buf (off + size) = ppGo dec g₂ buf (off + size) :=
                    ih g₁ (by omega) g₂ buf (off + size) (by omega) (by omega)
                  rw [hrec]
                · rw [ppGo_step_last g₁ hpeek hs (hfr_stable.trans hres) hrem,
                      ppGo_step_last g₂ hpeek hs hres hrem]

/-- **C4 (amended).** The outer frame parser has no nesting-depth-4 bound
(see the counterexample: five nested envelopes are still unwrapped), but its
recursion is bounded by the bytes in play rather than unbounded: whenever
decompression does not expand its payload, the frame loop's result is the
same for every fuel beyond the remaining buffer length, i.e. processing
terminates with nested re-entry depth bounded by the input length. -/
theorem claim_C4 (dec : List Nat → Option (List Nat))
    (hdec : ∀ b r, dec b = some r → r.length ≤ b.length)
    (f₁ f₂ : Nat) (buf : List Nat) (off : Nat)
    (h1 : buf.length - off < f₁) (h2 : buf.length - off < f₂) :
    ppGo dec f₁ buf off = ppGo dec f₂ buf off :=
  ppGo_fuel_stable dec hdec f₁ f₂ buf off h1 h2

theorem claim_C4_witness :
    (∀ b r, dec0 b = some r → r.length ≤ b.length)
    ∧ deep5.length - 0 < 100 ∧ deep5.length - 0 < 200
    ∧ ppGo dec0 100 deep5 0 = ppGo dec0 200 deep5 0 := by
  refine ⟨fun b r h => by simp [dec0] at h, by decide, by decide, ?_⟩
  exact claim_C4 dec0 (fun b r h => by simp [dec0] at h) 100 200 deep5 0
    (by decide) (by decide)

/-- **C3.** Reassembler length-prefix honesty and one-byte resync: the final
offset equals the sum of the `size` fields of the emitted frames plus the
number of resync-skipped bytes; the emitted frames are pairwise disjoint
byte ranges (no byte belongs to two frames); and whenever the u32 read at
the current offset is below 6 or above 2 MiB the offset advances by exactly
one byte, counting one skipped byte. -/
theorem claim_C3 :
    (∀ (proc : List Nat → List PEvent) (acc : List Nat),
        (sniffRun proc acc).2.1
          = sumSizes (sniffRun proc acc).1 + (sniffRun proc acc).2.2.1)
  ∧ (∀ (proc : List Nat → List PEvent) (acc : List Nat),
        ((sniffRun proc acc).1).Pairwise (fun a b => a.1 + a.2 ≤ b.1))
  ∧ (∀ (proc : List Nat → List PEvent) (f : Nat) (acc : List Nat) (off : Nat),
        off + 4 ≤ acc.length → badLen (u32val acc off) = true →
        sniffGo proc (f + 1) acc off
          = ((sniffGo proc f acc (off + 1)).1,
             (sniffGo proc f acc (off + 1)).2.1,
             (sniffGo proc f acc (off + 1)).2.2.1 + 1,
             (sniffGo proc f acc (off + 1)).2.2.2)) := by
  refine ⟨?_, ?_, ?_⟩
  · intro proc acc
    have h := (sniffGo_spec proc acc.length acc 0 (by omega)).1
    simpa [sniffRun] using h
  · intro proc acc
    exact framesOk_pairwise (sniffGo_spec proc acc.length acc 0 (by omega)).2.1
  · intro proc f acc off h4 hbad
    exact sniffGo_step_skip proc f acc off h4 hbad

theorem claim_C3_witness :
    ((0 : Nat) + 4 ≤ ([0, 0, 0, 0, 9] : List Nat).length)
    ∧ badLen (u32val [0, 0, 0, 0, 9] 0) = true
    ∧ sniffGo (fun _ => []) 1 [0, 0, 0, 0, 9] 0
        = ((sniffGo (fun _ => []) 0 [0, 0, 0, 0, 9] 1).1,
           (sniffGo (fun _ => []) 0 [0, 0, 0, 0, 9] 1).2.1,
           (sniffGo (fun _ => []) 0 [0, 0, 0, 0, 9] 1).2.2.1 + 1,
           (sniffGo (fun _ => []) 0 [0, 0, 0, 0, 9] 1).2.2.2) := by
  refine ⟨by decide, by decide, ?_⟩
  exact claim_C3.2.2 (fun _ => []) 0 [0, 0, 0, 0, 9] 0 (by decide) (by decide)

/-- **C5.** Flow buffer cap invariant: after each reassembler step the
retained per-flow buffer is at most 4 MiB.  (The loop in fact only ever
retains fewer than 4 unread bytes or an incomplete frame of accepted size
at most 2 MiB, so the retained suffix never reaches the cap and the
cap-discard clause is never exercised.) -/
theorem claim_C5 (proc : List Nat → List PEvent) (acc : List Nat) :
    (sniffRetained proc acc).length ≤ 4 * 1024 * 1024 := by
  have hb := sniffGo_retained_bound proc acc.length acc 0 (by omega) (by omega)
  have hlen : (sniffRetained proc acc).length = acc.length - (sniffRun proc acc).2.1 := by
    simp [sniffRetained]
  rw [hlen]
  unfold sniffRun
  omega

/-- **C9.** Error containment: no parser, codec, router, decoder or
dispatcher failure terminates the capture loop or discards a flow buffer.
The reassembler's framing (emitted frames, final offset, skip count) is
identical for every frame processor; each emitted frame is handed to the
processor exactly once, in order, regardless of what earlier frames
produced; the retained buffer is exactly the unconsumed suffix (never
cleared); and `processPacket` always returns normally — its `try`/`catch`
converts the frame loop's exception flag into a plain event-list return. -/
theorem claim_C9 :
    (∀ (p q : List Nat → List PEvent) (acc : List Nat),
        (sniffRun p acc).1 = (sniffRun q acc).1
        ∧ (sniffRun p acc).2.1 = (sniffRun q acc).2.1
        ∧ (sniffRun p acc).2.2.1 = (sniffRun q acc).2.2.1)
  ∧ (∀ (p : List Nat → List PEvent) (acc : List Nat),
        (sniffRun p acc).2.2.2
          = ((sniffRun p acc).1.map (fun fr => p ((acc.drop fr.1).take fr.2))).flatten)
  ∧ (∀ (p : List Nat → List PEvent) (acc : List Nat),
        sniffRetained p acc = acc.drop (sniffRun p acc).2.1)
  ∧ (∀ (dec : List Nat → Option (List Nat)) (fuel : Nat) (buf : List Nat),
        processPacket dec fuel buf = (ppGo dec fuel buf 0).1) := by
  refine ⟨?_, ?_, ?_, ?_⟩
  · intro p q acc
    obtain ⟨i1, i2, i3, _⟩ := sniffGo_proc_irrelevant p q acc.length acc 0
    exact ⟨i1, i2, i3⟩
  · intro p acc
    exact (sniffGo_proc_irrelevant p p acc.length acc 0).2.2.2
  · intro p acc
    rfl
  · intro dec fuel buf
    rfl

/-- `isUuidPlayer` (`src/unnamed/part_000` lines 178-183): the low 16 bits of
the uuid equal 1. -/
def isUuidPlayer (uuid : Nat) : Bool := uuid &&& 65535 == 1

/-- `isUuidMonster` (`src/unnamed/part_000` lines 185-190): the low 16 bits of
the uuid equal 2. -/
def isUuidMonster (uuid : Nat) : Bool := uuid &&& 65535 == 2

/-- The null guard of `isUuidPlayer` (`if (!uuid) return false`) for decoded
optional uuid fields. -/
def isUuidPlayerOpt (uuid : Option Nat) : Bool :=
  match uuid with
  | none => false
  | some u => isUuidPlayer u

/-- The null guard of `isUuidMonster` for decoded optional uuid fields. -/
def isUuidMonsterOpt (uuid : Option Nat) : Bool :=
  match uuid with
  | none => false
  | some u => isUuidMonster u

/-- `uuid.shiftRight(16).toNumber()`: the sink-facing short id. -/
def uidOfUuid (uuid : Option Nat) : Nat := (uuid.getD 0) >>> 16

/-- `getDamageElement` (`src/unnamed/part_000` lines 147-170); the argument is
the decoded `Property` field, whose absence falls to the `switch` default. -/
def getDamageElement (elementFlag : Option Nat) : String :=
  match elementFlag with
  | some 0 => "None"
  | some 1 => "Fire"
  | some 2 => "Ice"
  | some 3 => "Poison"
  | some 4 => "Thunder"
  | some 5 => "Wind"
  | some 6 => "Rock"
  | some 7 => "Light"
  | some 8 => "Dark"
  | _ => "Unknown"

/-- `getProfessionNameFromId` (`src/unnamed/part_000` lines 128-145). -/
def getProfessionNameFromId (professionId : Nat) : String :=
  if professionId = 21 then "雷影剑士"
  else if professionId = 22 then "冰魔导师"
  else if professionId = 23 then "涤罪恶火_战斧"
  else if professionId = 24 then "涤罪恶火_战剑"
  else if professionId = 25 then "核能射手"
  else if professionId = 26 then "兽化斗士"
  else "未知职业"

/-- Modelled from the spec: the `Heal` code of `pb.EDamageType` from the
`blueprotobuf` schema module, which is not among the sources.  Only its
identity matters to the claims below, never its numeral. -/
def EDamageType_Heal : Nat := 1

/-- Modelled from the spec: one decoded damage record of an AoI delta
(`SyncDamageInfo` of the `blueprotobuf` schema module, which is not among
the sources; shape from spec §4.7).  Decode conventions follow the spec's
words: the `||`-tested ids (`OwnerId`, `TopSummonerId`, `AttackerUuid`)
collapse "absent" and "zero" to `0` ("`TopSummonerId` if non-zero,
else `AttackerUuid`"), and the `??`-tested values are `Option`s with `none`
for an absent field. -/
structure SyncDamageInfo where
  OwnerId : Nat := 0
  TopSummonerId : Nat := 0
  AttackerUuid : Nat := 0
  Value : Option Nat := none
  LuckyValue : Option Nat := none
  TypeFlag : Option Nat := none
  EType : Option Nat := none
  IsMiss : Option Bool := none
  IsDead : Option Bool := none
  HpLessenValue : Option Nat := none
  Property : Option Nat := none
  DamageSource : Option Nat := none
  deriving DecidableEq, Repr

/-- One decoded attribute entry; its payload is opaque at this layer (the
attribute blob readers emit only setter calls, cf. `_processPlayerAttrs` and
`_processEnemyAttrs`). -/
structure AttrEntry where
  AttrId : Nat := 0
  AttrData : Option (List Nat) := none
  deriving DecidableEq, Repr

/-- Calls made on the injected `userDataManager` sink (plus the local-player
notice logged by the uuid tracker, and the two attr-processor entry points
kept as cut events because they emit only setter calls). -/
inductive SinkCall where
  | processDamageToPlayer (playerUid source value luckyValue : Nat)
      (isCrit isCauseLucky isHeal isMiss isDead isLucky : Bool)
      (hpLessenValue : Nat) (damageElement : String) (skillId : Nat)
  | processPlayerDamage (attackerUid source value luckyValue : Nat)
      (isCrit isCauseLucky isHeal isMiss isDead isLucky : Bool)
      (hpLessenValue : Nat) (damageElement : String) (skillId : Nat)
  | playerAttrs (uid : Nat) (attrs : List AttrEntry)
  | enemyAttrs (uid : Nat) (attrs : List AttrEntry)
  | notice (uuid : Nat)
  | setName (uid : Nat) (name : String)
  | setFightPoint (uid val : Nat)
  | setProfession (uid : Nat) (name : String)
  | setEnemyId (uid id : Nat)
  deriving DecidableEq, Repr

/-- `syncDamageInfo.TopSummonerId || syncDamageInfo.AttackerUuid`
(`src/unnamed/part_000` line 240): the effective attacker uuid. -/
def effAttacker (d : SyncDamageInfo) : Nat :=
  if d.TopSummonerId ≠ 0 then d.TopSummonerId else d.AttackerUuid

/-- `value ?? luckyValue ?? Long.ZERO` (`src/unnamed/part_000` line 247). -/
def dmgValue (d : SyncDamageInfo) : Nat :=
  match d.Value with
  | some v => v
  | none =>
    match d.LuckyValue with
    | some l => l
    | none => 0

/-- The damage-event loop body of `_processAoiSyncDelta`
(`src/unnamed/part_000` lines 234-313), for one decoded damage record given
the target's classification and short id. -/
def processDamageEvent (isTargetPlayer isTargetMonster : Bool) (targetUid : Nat)
    (d : SyncDamageInfo) : List SinkCall :=
  if d.OwnerId = 0 then []
  else if effAttacker d = 0 then []
  else
    let isAttackerPlayer := isUuidPlayer (effAttacker d)
    let attackerUid := effAttacker d >>> 16
    if dmgValue d = 0 then []
    else
      let isCrit := match d.TypeFlag with | some tfl => tfl &&& 1 == 1 | none => false
      let isCauseLucky := match d.TypeFlag with | some tfl => tfl &&& 4 == 4 | none => false
      let isMiss := d.IsMiss.getD false
      let isHeal := d.EType == some EDamageType_Heal
      let isDead := d.IsDead.getD false
      let isLucky := d.LuckyValue.isSome
      let hpLessenValue := d.HpLessenValue.getD 0
      let damageElement := getDamageElement d.Property
      let damageSource := d.DamageSource.getD 0
      if isTargetPlayer then
        if isAttackerPlayer then []
        else
          [SinkCall.processDamageToPlayer targetUid damageSource (dmgValue d)
            (d.LuckyValue.getD 0) isCrit isCauseLucky isHeal isMiss isDead isLucky
            hpLessenValue damageElement d.OwnerId]
      else if isTargetMonster then
        if isAttackerPlayer then
          [SinkCall.processPlayerDamage attackerUid damageSource (dmgValue d)
            (d.LuckyValue.getD 0) isCrit isCauseLucky isHeal isMiss isDead isLucky
            hpLessenValue damageElement d.OwnerId]
        else []
      else []

/-- Modelled from the spec: one decoded AoI delta (shape from spec §4.7;
`Attrs` is the inner `Attrs.Attrs` list, `DamageEvents` the inner
`DamageEvents.Events` list, whose elements may be null). -/
structure AoiSyncDelta where
  Uuid : Option Nat := none
  Attrs : Option (List AttrEntry) := none
  DamageEvents : Option (List (Option SyncDamageInfo)) := none
  deriving DecidableEq, Repr

/-- `_processAoiSyncDelta` (`src/unnamed/part_000` lines 214-315): classify
the target uuid, hand the attribute collection to the player/enemy attr
processor (cut events), then run the damage-event loop in order. -/
def processAoiSyncDelta (delta : AoiSyncDelta) : List SinkCall :=
  match delta.Uuid with
  | none => []
  | some t =>
    let isTargetPlayer := isUuidPlayer t
    let isTargetMonster := isUuidMonster t
    let targetUid := t >>> 16
    let attrCalls :=
      match delta.Attrs with
      | some attrs =>
        if isTargetPlayer then [SinkCall.playerAttrs targetUid attrs]
        else if isTargetMonster then [SinkCall.enemyAttrs targetUid attrs]
        else []
      | none => []
    let dmgCalls :=
      match delta.DamageEvents with
      | some evs =>
        (evs.map (fun od =>
          match od with
          | none => []
          | some d => processDamageEvent isTargetPlayer isTargetMonster targetUid d)).flatten
      | none => []
    attrCalls ++ dmgCalls

/-- The local-player tracking guard shared by `_processSyncNearEntities`
(lines 541-545) and `_processSyncToMeDeltaInfo` (lines 613-617):
`if (uuid && !currentUserUuid.eq(uuid)) { currentUserUuid = uuid; log }`.
Returns the new tracked uuid and the notice, if any. -/
def trackUuid (cur : Nat) (uuid : Option Nat) : Nat × List SinkCall :=
  match uuid with
  | none => (cur, [])
  | some u => if cur = u then (cur, []) else (u, [SinkCall.notice u])

/-- Modelled from the spec: decoded `CharBase` (fields used by the source). -/
structure CharBase where
  Name : Option String := none
  FightPoint : Option Nat := none
  deriving DecidableEq, Repr

/-- Modelled from the spec: decoded `ProfessionList`. -/
structure ProfessionList where
  CurProfessionId : Option Nat := none
  deriving DecidableEq, Repr

/-- Modelled from the spec: decoded `CharBaseData`. -/
structure CharBaseData where
  CharBase : Option CharBase := none
  ProfessionList : Option ProfessionList := none
  deriving DecidableEq, Repr

/-- Modelled from the spec: decoded `MonsterBase`. -/
structure MonsterBase where
  Id : Option Nat := none
  deriving DecidableEq, Repr

/-- Modelled from the spec: decoded `MonsterBaseData`. -/
structure MonsterBaseData where
  MonsterBase : Option MonsterBase := none
  deriving DecidableEq, Repr

/-- Modelled from the spec: decoded entity `Container`. -/
structure EntityContainer where
  CharBaseData : Option CharBaseData := none
  MonsterBaseData : Option MonsterBaseData := none
  deriving DecidableEq, Repr

/-- Modelled from the spec: decoded `Entity` wrapper. -/
structure EntityInfo where
  Container : Option EntityContainer := none
  deriving DecidableEq, Repr

/-- Modelled from the spec: one decoded entry of `SyncNearEntities.Entities`. -/
structure NearEntity where
  Uuid : Option Nat := none
  Entity : Option EntityInfo := none
  deriving DecidableEq, Repr

/-- Modelled from the spec: decoded `SyncNearEntities`. -/
structure SyncNearEntities where
  Entities : Option (List NearEntity) := none
  deriving DecidableEq, Repr

/-- The setter calls the `_processSyncNearEntities` loop body emits for one
entity after the uuid-tracking guard (`src/unnamed/part_000` lines 547-581);
the source's `continue`s become empty lists, and a falsy `Name`,
`FightPoint`, `CurProfessionId` or `Id` (absent, empty or zero) emits
nothing. -/
def nearEntitySetters (e : NearEntity) : List SinkCall :=
  match e.Entity with
  | none => []
  | some ei =>
    match ei.Container with
    | none => []
    | some c =>
      if isUuidPlayerOpt e.Uuid then
        match c.CharBaseData with
        | none => []
        | some v =>
          match v.CharBase with
          | none => []
          | some cb =>
            (if cb.Name.getD "" ≠ "" then
              [SinkCall.setName (uidOfUuid e.Uuid) (cb.Name.getD "")] else [])
            ++ (if cb.FightPoint.getD 0 ≠ 0 then
              [SinkCall.setFightPoint (uidOfUuid e.Uuid) (cb.FightPoint.getD 0)] else [])
            ++ (match v.ProfessionList with
                | some pl =>
                  if pl.CurProfessionId.getD 0 ≠ 0 then
                    [SinkCall.setProfession (uidOfUuid e.Uuid)
                      (getProfessionNameFromId (pl.CurProfessionId.getD 0))]
                  else []
                | none => [])
      else if isUuidMonsterOpt e.Uuid then
        match c.MonsterBaseData with
        | none => []
        | some v =>
          match v.MonsterBase with
          | none => []
          | some mb =>
            if mb.Id.getD 0 ≠ 0 then
              [SinkCall.setEnemyId (uidOfUuid e.Uuid) (mb.Id.getD 0)]
            else []
      else []

/-- One iteration of the `_processSyncNearEntities` entity loop
(`src/unnamed/part_000` lines 540-582): first the uuid-tracking guard, then
the container setters (which depend only on the entity, not on the tracked
state). -/
def processNearEntity (cur : Nat) (e : NearEntity) : Nat × List SinkCall :=
  ((trackUuid cur e.Uuid).1, (trackUuid cur e.Uuid).2 ++ nearEntitySetters e)

/-- `_processSyncNearEntities` (`src/unnamed/part_000` lines 534-583) over a
decoded message, threading the tracked local-player uuid. -/
def processSyncNearEntities (cur : Nat) (m : SyncNearEntities) : Nat × List SinkCall :=
  match m.Entities with
  | none => (cur, [])
  | some es =>
    es.foldl (fun acc e =>
      let r := processNearEntity acc.1 e
      (r.1, acc.2 ++ r.2)) (cur, [])

/-- Modelled from the spec: decoded `AoiSyncToMeDelta`. -/
structure AoiSyncToMeDelta where
  Uuid : Option Nat := none
  BaseDelta : Option AoiSyncDelta := none
  deriving DecidableEq, Repr

/-- Modelled from the spec: decoded `SyncToMeDeltaInfo`. -/
structure SyncToMeDeltaInfo where
  DeltaInfo : Option AoiSyncToMeDelta := none
  deriving DecidableEq, Repr

/-- `_processSyncToMeDeltaInfo` (`src/unnamed/part_000` lines 607-623): a
missing `DeltaInfo` throws (accessing `.Uuid` of null — third component);
otherwise the uuid-tracking guard runs, then the base delta if present. -/
def processSyncToMeDeltaInfo (cur : Nat) (m : SyncToMeDeltaInfo) :
    Nat × List SinkCall × Bool :=
  match m.DeltaInfo with
  | none => (cur, [], true)
  | some dd =>
    let r := trackUuid cur dd.Uuid
    match dd.BaseDelta with
    | none => (r.1, r.2, false)
    | some bd => (r.1, r.2 ++ processAoiSyncDelta bd, false)

/-- **C7.** Effective attacker and damage value: the effective attacker is
`TopSummonerId` when non-zero and `AttackerUuid` otherwise; the damage value
is `Value` if present, else `LuckyValue` if present, else 0; a zero damage
value produces no sink call; and every emitted damage call carries that
damage value (with `processPlayerDamage` carrying the effective attacker's
short id, and `processDamageToPlayer` the target's). -/
theorem claim_C7 (t : Nat) (d : SyncDamageInfo) :
    (effAttacker d = if d.TopSummonerId ≠ 0 then d.TopSummonerId else d.AttackerUuid)
  ∧ (∀ v, d.Value = some v → dmgValue d = v)
  ∧ (d.Value = none → ∀ l, d.LuckyValue = some l → dmgValue d = l)
  ∧ (d.Value = none → d.LuckyValue = none → dmgValue d = 0)
  ∧ (dmgValue d = 0 →
      processDamageEvent (isUuidPlayer t) (isUuidMonster t) (t >>> 16) d = [])
  ∧ (∀ c ∈ processDamageEvent (isUuidPlayer t) (isUuidMonster t) (t >>> 16) d,
      (∀ a src v lv ic icl ihl im idd il hp el sk,
          c = SinkCall.processPlayerDamage a src v lv ic icl ihl im idd il hp el sk →
          a = effAttacker d >>> 16 ∧ v = dmgValue d)
      ∧ (∀ p src v lv ic icl ihl im idd il hp el sk,
          c = SinkCall.processDamageToPlayer p src v lv ic icl ihl im idd il hp el sk →
          p = t >>> 16 ∧ v = dmgValue d)) := by
  refine ⟨rfl, ?_, ?_, ?_, ?_, ?_⟩
  · intro v hv
    simp [dmgValue, hv]
  · intro hv l hl
    simp [dmgValue, hv, hl]
  · intro hv hl
    simp [dmgValue, hv, hl]
  · intro hz
    simp only [processDamageEvent]
    by_cases h1 : d.OwnerId = 0
    · simp [h1]
    · by_cases h2 : effAttacker d = 0
      · simp [h1, h2]
      · simp [h1, h2, hz]
  · intro c hc
    simp only [processDamageEvent] at hc
    by_cases h1 : d.OwnerId = 0
    · simp [h1] at hc
    · by_cases h2 : effAttacker d = 0
      · simp [h1, h2] at hc
      · by_cases h3 : dmgValue d = 0
        · simp [h1, h2, h3] at hc
        · simp only [h1, h2, h3, if_false] at hc
          by_cases hp : isUuidPlayer t = true
          · simp only [hp, if_true] at hc
            by_cases ha : isUuidPlayer (effAttacker d) = true
            · simp [ha] at hc
            · have ha2 : isUuidPlayer (effAttacker d) = false := by
                simpa using ha
              simp [ha2] at hc
              subst hc
              constructor
              · intro a src v lv ic icl ihl im idd il hp2 el sk heq
                exact absurd heq (by simp)
              · intro p src v lv ic icl ihl im idd il hp2 el sk heq
                simp only [SinkCall.processDamageToPlayer.injEq] at heq
                exact ⟨heq.1.symm, heq.2.2.1.symm⟩
          · simp only [hp, if_false] at hc
            by_cases hm : isUuidMonster t = true
            · simp only [hm, if_true] at hc
              by_cases ha : isUuidPlayer (effAttacker d) = true
              · simp [ha] at hc
                subst hc
                constructor
                · intro a src v lv ic icl ihl im idd il hp2 el sk heq
                  simp only [SinkCall.processPlayerDamage.injEq] at heq
                  exact ⟨heq.1.symm, heq.2.2.1.symm⟩
                · intro p src v lv ic icl ihl im idd il hp2 el sk heq
                  exact absurd heq (by simp)
              · simp [ha] at hc
            · simp [hm] at hc

theorem claim_C7_witness :
    dmgValue { OwnerId := 5, AttackerUuid := 65537 } = 0
    ∧ processDamageEvent (isUuidPlayer 131074) (isUuidMonster 131074) (131074 >>> 16)
        { OwnerId := 5, AttackerUuid := 65537 } = [] := by
  refine ⟨by decide, ?_⟩
  exact (claim_C7 131074 { OwnerId := 5, AttackerUuid := 65537 }).2.2.2.2.1 (by decide)

/-- Whether a `processDamageToPlayer` call. -/
def isDamageToPlayerCall : SinkCall → Bool
  | .processDamageToPlayer .. => true
  | _ => false

/-- Whether a `processPlayerDamage` call. -/
def isPlayerDamageCall : SinkCall → Bool
  | .processPlayerDamage .. => true
  | _ => false

theorem monster_not_player {t : Nat} (h : isUuidMonster t = true) :
    isUuidPlayer t = false := by
  simp [isUuidPlayer, isUuidMonster] at *
  omega

/-- **C2 (amended).** Damage pairing filter as the code implements it: for
every decoded damage event, player→player, non-player→monster (monster or
unknown attacker class), and unknown-class-target pairings produce no sink
call; a player attacker on a monster target emits exactly one
`processPlayerDamage`; and any NON-player attacker — monster or unknown
class alike — on a player target emits exactly one `processDamageToPlayer`
(the code only tests `isUuidPlayer` on the attacker, so unknown-class
attackers are not dropped when the target is a player). -/
theorem claim_C2 (t : Nat) (d : SyncDamageInfo) :
    (isUuidPlayer t = true → isUuidPlayer (effAttacker d) = true →
      processDamageEvent (isUuidPlayer t) (isUuidMonster t) (t >>> 16) d = [])
  ∧ (isUuidMonster t = true → isUuidPlayer (effAttacker d) = false →
      processDamageEvent (isUuidPlayer t) (isUuidMonster t) (t >>> 16) d = [])
  ∧ (isUuidPlayer t = false → isUuidMonster t = false →
      processDamageEvent (isUuidPlayer t) (isUuidMonster t) (t >>> 16) d = [])
  ∧ (processDamageEvent (isUuidPlayer t) (isUuidMonster t) (t >>> 16) d ≠ [] →
      (isUuidPlayer t = true ∧ isUuidPlayer (effAttacker d) = false
        ∧ (processDamageEvent (isUuidPlayer t) (isUuidMonster t) (t >>> 16) d).all
            isDamageToPlayerCall = true
        ∧ (processDamageEvent (isUuidPlayer t) (isUuidMonster t) (t >>> 16) d).length = 1)
      ∨ (isUuidMonster t = true ∧ isUuidPlayer (effAttacker d) = true
        ∧ (processDamageEvent (isUuidPlayer t) (isUuidMonster t) (t >>> 16) d).all
            isPlayerDamageCall = true
        ∧ (processDamageEvent (isUuidPlayer t) (isUuidMonster t) (t >>> 16) d).length = 1)) := by
  refine ⟨?_, ?_, ?_, ?_⟩
  · intro hp ha
    simp only [processDamageEvent]
    by_cases h1 : d.OwnerId = 0
    · simp [h1]
    · by_cases h2 : effAttacker d = 0
      · simp [h1, h2]
      · by_cases h3 : dmgValue d = 0
        · simp [h1, h2, h3]
        · simp [h1, h2, h3, hp, ha]
  · intro hm ha
    have hp := monster_not_player hm
    simp only [processDamageEvent]
    by_cases h1 : d.OwnerId = 0
    · simp [h1]
    · by_cases h2 : effAttacker d = 0
      · simp [h1, h2]
      · by_cases h3 : dmgValue d = 0
        · simp [h1, h2, h3]
        · simp [h1, h2, h3, hp, hm, ha]
  · intro hp hm
    simp only [processDamageEvent]
    by_cases h1 : d.OwnerId = 0
    · simp [h1]
    · by_cases h2 : effAttacker d = 0
      · simp [h1, h2]
      · by_cases h3 : dmgValue d = 0
        · simp [h1, h2, h3]
        · simp [h1, h2, h3, hp, hm]
  · intro hne
    simp only [processDamageEvent] at hne ⊢
    by_cases h1 : d.OwnerId = 0
    · simp [h1] at hne
    · by_cases h2 : effAttacker d = 0
      · simp [h1, h2] at hne
      · by_cases h3 : dmgValue d = 0
        · simp [h1, h2, h3] at hne
        · by_cases hp : isUuidPlayer t = true
          · by_cases ha : isUuidPlayer (effAttacker d) = true
            · simp [h1, h2, h3, hp, ha] at hne
            · have ha2 : isUuidPlayer (effAttacker d) = false := by simpa using ha
              left
              refine ⟨hp, ha2, ?_, ?_⟩ <;>
                simp [processDamageEvent, h1, h2, h3, hp, ha2, isDamageToPlayerCall]
          · by_cases hm : isUuidMonster t = true
            · by_cases ha : isUuidPlayer (effAttacker d) = true
              · right
                refine ⟨hm, ha, ?_, ?_⟩ <;>
                  simp [processDamageEvent, h1, h2, h3, hp, hm, ha, isPlayerDamageCall]
              · simp [h1, h2, h3, hp, hm, ha] at hne
            · simp [h1, h2, h3, hp, hm] at hne

/-- **C2 (counterexample).** A damage event whose effective attacker has
unknown class (low 16 bits = 3, neither player nor monster) against a player
target DOES emit a sink call — one `processDamageToPlayer` — contradicting
the claim that pairings involving an unknown-class attacker produce none. -/
theorem claim_C2_counterexample :
    isUuidPlayer 65537 = true
    ∧ isUuidPlayer 196611 = false
    ∧ isUuidMonster 196611 = false
    ∧ effAttacker { OwnerId := 5, AttackerUuid := 196611, Value := some 7 } = 196611
    ∧ processAoiSyncDelta
        { Uuid := some 65537,
          DamageEvents := some [some { OwnerId := 5, AttackerUuid := 196611, Value := some 7 }] }
      = [SinkCall.processDamageToPlayer 1 0 7 0 false false false false false false 0
          "Unknown" 5] := by
  refine ⟨by decide, by decide, by decide, by decide, by decide⟩

theorem claim_C2_witness :
    isUuidPlayer 65537 = true
    ∧ isUuidPlayer (effAttacker { OwnerId := 5, AttackerUuid := 131073, Value := some 7 }) = true
    ∧ processDamageEvent (isUuidPlayer 65537) (isUuidMonster 65537) (65537 >>> 16)
        { OwnerId := 5, AttackerUuid := 131073, Value := some 7 } = [] := by
  refine ⟨by decide, by decide, ?_⟩
  exact (claim_C2 65537 { OwnerId := 5, AttackerUuid := 131073, Value := some 7 }).1
    (by decide) (by decide)

/-- **C6.** Local-player tracking: an observed uuid equal to the current
local-player uuid leaves the state unchanged with no notice; a distinct
observed uuid replaces it and emits a notice (so the first uuid observed
from the initial state becomes the local player); this holds for each
entity of a `SyncNearEntities` message and for the delta uuid of a
`SyncToMeDeltaInfo` message, and a singleton `SyncNearEntities` behaves as
its one entity. -/
theorem claim_C6 :
    (∀ (cur u : Nat),
        trackUuid cur (some u)
          = if cur = u then (cur, []) else (u, [SinkCall.notice u]))
  ∧ (∀ cur : Nat, trackUuid cur none = (cur, []))
  ∧ (∀ (cur u : Nat) (e : NearEntity), e.Uuid = some u → u ≠ cur →
        (processNearEntity cur e).1 = u
        ∧ SinkCall.notice u ∈ (processNearEntity cur e).2)
  ∧ (∀ (cur : Nat) (e : NearEntity), e.Uuid = some cur →
        (processNearEntity cur e).1 = cur)
  ∧ (∀ (cur : Nat) (e : NearEntity),
        processSyncNearEntities cur { Entities := some [e] }
          = ((processNearEntity cur e).1, (processNearEntity cur e).2))
  ∧ (∀ (cur u : Nat) (dd : AoiSyncToMeDelta), dd.Uuid = some u → u ≠ cur →
        (processSyncToMeDeltaInfo cur { DeltaInfo := some dd }).1 = u
        ∧ SinkCall.notice u ∈ (processSyncToMeDeltaInfo cur { DeltaInfo := some dd }).2.1)
  ∧ (∀ (cur : Nat) (dd : AoiSyncToMeDelta), dd.Uuid = some cur →
        (processSyncToMeDeltaInfo cur { DeltaInfo := some dd }).1 = cur) := by
  refine ⟨fun cur u => rfl, fun cur => rfl, ?_, ?_, ?_, ?_, ?_⟩
  · intro cur u e he hne
    constructor
    · simp [processNearEntity, he, trackUuid, Ne.symm hne]
    · simp [processNearEntity, he, trackUuid, Ne.symm hne]
  · intro cur e he
    simp [processNearEntity, he, trackUuid]
  · intro cur e
    simp [processSyncNearEntities]
  · intro cur u dd hdd hne
    cases hbd : dd.BaseDelta with
    | none =>
      constructor
      · simp [processSyncToMeDeltaInfo, hdd, hbd, trackUuid, Ne.symm hne]
      · simp [processSyncToMeDeltaInfo, hdd, hbd, trackUuid, Ne.symm hne]
    | some bd =>
      constructor
      · simp [processSyncToMeDeltaInfo, hdd, hbd, trackUuid, Ne.symm hne]
      · simp [processSyncToMeDeltaInfo, hdd, hbd, trackUuid, Ne.symm hne]
  · intro cur dd hdd
    cases hbd : dd.BaseDelta with
    | none => simp [processSyncToMeDeltaInfo, hdd, hbd, trackUuid]
    | some bd => simp [processSyncToMeDeltaInfo, hdd, hbd, trackUuid]

theorem claim_C6_witness :
    ({ Uuid := some 5 } : NearEntity).Uuid = some 5
    ∧ (5 : Nat) ≠ 0
    ∧ (processNearEntity 0 { Uuid := some 5 }).1 = 5
    ∧ SinkCall.notice 5 ∈ (processNearEntity 0 { Uuid := some 5 }).2
    ∧ (processNearEntity 7 { Uuid := some 7 }).1 = 7 := by
  refine ⟨rfl, by decide, ?_, ?_, ?_⟩
  · exact (claim_C6.2.2.1 0 5 { Uuid := some 5 } rfl (by decide)).1
  · exact (claim_C6.2.2.1 0 5 { Uuid := some 5 } rfl (by decide)).2
  · exact claim_C6.2.2.2.1 7 { Uuid := some 7 } rfl
